import Mathlib

/-!
Shallow embedding of go-macaron/binding (src/binding.go) and proofs about it.

The Go source is reflection-driven; here Go types are reified as `GoType`,
Go values as `GoValue`, and the reflection walk of `mapForm`,
`setWithProperType` and `validateStruct` is translated function by function.
Machine integers are modelled as `Int`/`Nat` with explicit truncation where
the Go code stores into a fixed-width field.
-/

namespace GoBinding

/-- One Go struct field as seen through `reflect.StructField` in binding.go:
its Go name (`field.Name`), its `form` tag, its `binding` tag, whether it is
an anonymous (embedded) field, and whether it is exported
(`CanInterface`/`CanSet`). -/
structure FieldMeta where
  name : String
  formTag : String
  bindingTag : String
  anonymous : Bool
  exported : Bool
deriving Repr, DecidableEq

/-- Reified Go types covering the kinds binding.go dispatches on:
signed/unsigned integers of a bit width, bool, 32/64-bit floats, string,
slices, structs (a list of tagged fields), pointers, and
`*multipart.FileHeader` (kept opaque). -/
inductive GoType where
  | tInt (width : Nat)
  | tUint (width : Nat)
  | tBool
  | tFloat (is32 : Bool)
  | tString
  | tSlice (elem : GoType)
  | tStruct (fields : List (FieldMeta × GoType))
  | tPtr (elem : GoType)
  | tFileHeader
deriving Repr

/-- Reified Go values mirroring `GoType`. Integer fields store the value as
held by the Go field (already truncated to the width). A slice carries its
nil-ness (Go distinguishes a nil slice from an empty one in
`reflect.DeepEqual`). A file-header value is an opaque handle id, `none`
standing for a nil `*multipart.FileHeader`. -/
inductive GoValue where
  | vInt (width : Nat) (n : Int)
  | vUint (width : Nat) (n : Nat)
  | vBool (b : Bool)
  | vFloat (is32 : Bool) (x : Float)
  | vString (s : String)
  | vSlice (isNil : Bool) (elems : List GoValue)
  | vStruct (fields : List GoValue)
  | vPtr (elem : Option GoValue)
  | vFileHeader (handle : Option Nat)
deriving Repr

mutual

/-- Zero value of a Go type (`reflect.Zero`). -/
def zeroValue : GoType → GoValue
  | .tInt w => .vInt w 0
  | .tUint w => .vUint w 0
  | .tBool => .vBool false
  | .tFloat is32 => .vFloat is32 0.0
  | .tString => .vString ""
  | .tSlice _ => .vSlice true []
  | .tStruct fs => .vStruct (zeroFields fs)
  | .tPtr _ => .vPtr none
  | .tFileHeader => .vFileHeader none

/-- Zero values of a struct's fields, in declaration order. -/
def zeroFields : List (FieldMeta × GoType) → List GoValue
  | [] => []
  | f :: fs => zeroValue f.2 :: zeroFields fs

end

mutual

/-- Model of `reflect.DeepEqual` on reified values (both arguments always
have the same Go type in binding.go, so only same-shape comparisons can
return `true`). Slices compare nil-ness, length and elements; pointers are
equal when both nil or both pointing at deeply equal values. -/
def beqValue : GoValue → GoValue → Bool
  | .vInt w n, .vInt w2 n2 => w == w2 && n == n2
  | .vUint w n, .vUint w2 n2 => w == w2 && n == n2
  | .vBool a, .vBool b => a == b
  | .vFloat i x, .vFloat j y => i == j && x == y
  | .vString s, .vString t => s == t
  | .vSlice na xs, .vSlice nb ys => na == nb && beqList xs ys
  | .vStruct xs, .vStruct ys => beqList xs ys
  | .vPtr none, .vPtr none => true
  | .vPtr (some a), .vPtr (some b) => beqValue a b
  | .vFileHeader h, .vFileHeader g => h == g
  | _, _ => false

/-- Elementwise `beqValue` on lists of values. -/
def beqList : List GoValue → List GoValue → Bool
  | [], [] => true
  | x :: xs, y :: ys => beqValue x y && beqList xs ys
  | _, _ => false

end

/-! ### String helpers (strings.Split, strconv) -/

/-- Model of `strings.Split(s, ";")` on the character list: Go's Split of the
empty string is `[""]`, and separators delimit (possibly empty) chunks. -/
def splitSemiChars : List Char → List (List Char)
  | [] => [[]]
  | c :: cs =>
    match splitSemiChars cs with
    | [] => [[c]]
    | g :: gs => if c = ';' then [] :: g :: gs else (c :: g) :: gs

/-- Model of `strings.Split(s, ";")` as used on `binding` tags. -/
def splitSemi (s : String) : List String :=
  (splitSemiChars s.data).map (fun cs => ⟨cs⟩)

example : splitSemi "" = [""] := rfl
example : splitSemi "Required" = ["Required"] := rfl
example : splitSemi "Url;Required" = ["Url", "Required"] := rfl
example : splitSemi ";" = ["", ""] := rfl

/-- Character-list prefix test, modelling `strings.HasPrefix` (the rule
strings binding.go probes are ASCII, so byte and character prefixes agree). -/
def startsWithChars : List Char → List Char → Bool
  | _, [] => true
  | [], _ :: _ => false
  | c :: cs, p :: ps => c = p && startsWithChars cs ps

/-- Prefix test on strings. -/
def strStartsWith (s p : String) : Bool :=
  startsWithChars s.data p.data

/-- Decimal digits to a number; `none` if empty or any character is not an
ASCII digit (base-10 `strconv` syntax, which admits no underscores). -/
def digitsToNat : List Char → Option Nat
  | [] => none
  | cs => go cs 0
where
  go : List Char → Nat → Option Nat
    | [], acc => some acc
    | c :: cs, acc =>
      if c.isDigit then go cs (10 * acc + (c.toNat - '0'.toNat)) else none

/-- Model of `strconv.ParseInt(s, 10, 64)`: optional single sign, then
base-10 digits; `none` on syntax error or when the value overflows the
signed 64-bit range (Go reports `ErrRange` there, and binding.go treats any
non-nil error as a parse failure). -/
def parseInt64 (s : String) : Option Int :=
  match s.data with
  | [] => none
  | c :: rest =>
    let signDigits : Bool × List Char :=
      if c = '-' then (true, rest)
      else if c = '+' then (false, rest)
      else (false, c :: rest)
    match digitsToNat signDigits.2 with
    | none => none
    | some n =>
      let v : Int := if signDigits.1 then -(n : Int) else (n : Int)
      if v < -(2 ^ 63) ∨ 2 ^ 63 - 1 < v then none else some v

/-- Model of `strconv.ParseUint(s, 10, 64)`: base-10 digits, no sign
permitted; `none` on syntax error or unsigned 64-bit overflow. -/
def parseUint64 (s : String) : Option Nat :=
  match digitsToNat s.data with
  | none => none
  | some n => if 2 ^ 64 - 1 < n then none else some n

/-- Model of `strconv.ParseBool`: accepts exactly the Go literals
1, t, T, TRUE, true, True, 0, f, F, FALSE, false, False. -/
def parseBool (s : String) : Option Bool :=
  if s = "1" ∨ s = "t" ∨ s = "T" ∨ s = "TRUE" ∨ s = "true" ∨ s = "True" then some true
  else if s = "0" ∨ s = "f" ∨ s = "F" ∨ s = "FALSE" ∨ s = "false" ∨ s = "False" then some false
  else none

/-- Model of `strconv.Atoi` as used (with its error ignored) on rule
arguments: a syntax error yields `0`, a value outside the 64-bit signed
range is clamped to the range boundary (Go's `ErrRange` behaviour), and the
caller uses whatever number comes back. -/
def atoiLenient (s : String) : Int :=
  match s.data with
  | [] => 0
  | c :: rest =>
    let signDigits : Bool × List Char :=
      if c = '-' then (true, rest)
      else if c = '+' then (false, rest)
      else (false, c :: rest)
    match digitsToNat signDigits.2 with
    | none => 0
    | some n =>
      let v : Int := if signDigits.1 then -(n : Int) else (n : Int)
      if v < -(2 ^ 63) then -(2 ^ 63)
      else if 2 ^ 63 - 1 < v then 2 ^ 63 - 1
      else v

example : parseInt64 "300" = some 300 := rfl
example : parseInt64 "-12" = some (-12) := rfl
example : parseInt64 "1.5" = none := rfl
example : parseInt64 "" = none := rfl
example : parseInt64 "9223372036854775808" = none := rfl
example : parseUint64 "-1" = none := rfl
example : parseBool "on" = none := rfl
example : atoiLenient "5" = 5 := rfl

/-- Two's-complement truncation performed by `reflect.Value.SetInt` when the
64-bit parse result is stored into a field of width `w` (Go converts with a
plain `int8(x)`-style conversion, which wraps). -/
def truncInt (w : Nat) (n : Int) : Int :=
  let r := n % (2 ^ w : Nat)
  if (2 ^ (w - 1) : Nat) ≤ r then r - (2 ^ w : Nat) else r

/-- Wrapping performed by `reflect.Value.SetUint` for a width-`w` unsigned
field. -/
def truncUint (w : Nat) (n : Nat) : Nat :=
  n % 2 ^ w

example : truncInt 8 300 = 44 := by decide
example : truncInt 64 300 = 300 := by decide
example : truncUint 8 300 = 44 := by decide

/-! ### Error aggregation -/

/-- Modelled from the spec: the repository's `Error` record (its errors.go
is not under src/) — an error is a field path, a classification tag and a
message, exactly the shape the tests build with
`Error\x7bFieldNames, Classification, Message\x7d`. -/
structure Error where
  fieldNames : List String
  classification : String
  message : String
deriving Repr, DecidableEq

/-- Modelled from the spec: the ordered, append-only error list. -/
abbrev Errors : Type := List Error

/-- Modelled from the spec: `Errors.Add` appends exactly one error with the
given field path, classification and message at the end of the list. -/
def Errors.add (e : Errors) (fieldNames : List String) (classification message : String) :
    Errors :=
  e ++ [⟨fieldNames, classification, message⟩]

/-- Modelled from the spec: classification tag constants from the missing
errors.go; the exact strings are irrelevant to the control flow, the spec's
taxonomy names are used. -/
def RequiredError : String := "required"

/-- Modelled from the spec: deserialization failure classification. -/
def DeserializationError : String := "deserialization"

/-- Modelled from the spec: content-type failure classification. -/
def ContentTypeError : String := "content-type"

/-- Modelled from the spec: integer coercion failure classification. -/
def IntegerTypeError : String := "integer-type"

/-- Modelled from the spec: boolean coercion failure classification. -/
def BooleanTypeError : String := "boolean-type"

/-- Modelled from the spec: float coercion failure classification. -/
def FloatTypeError : String := "float-type"

/-- Modelled from the spec: AlphaDash rule violation classification (the
tests pin this string). -/
def AlphaDashError : String := "AlphaDashError"

/-- Modelled from the spec: AlphaDashDot rule violation classification. -/
def AlphaDashDotError : String := "AlphaDashDot"

/-- Modelled from the spec: MinSize rule violation classification. -/
def MinSizeError : String := "MinSize"

/-- Modelled from the spec: MaxSize rule violation classification. -/
def MaxSizeError : String := "MaxSize"

/-- Modelled from the spec: Email rule violation classification. -/
def EmailError : String := "Email"

/-- Modelled from the spec: Url rule violation classification. -/
def UrlError : String := "Url"

/-- Stand-ins for the Go standard library facilities binding.go calls whose
exact semantics the claims do not depend on: the four compiled regular
expressions (`alphaDashPattern`, `alphaDashDotPattern`, `emailPattern`,
`urlPattern`, each used through `MatchString`), `strconv.ParseFloat` at both
bit sizes, and `fmt` rendering of floats and of `*multipart.FileHeader`
values. Theorems quantify over this record, so they hold whatever these
library functions return. -/
structure StdLib where
  alphaDashMatch : String → Bool
  alphaDashDotMatch : String → Bool
  emailMatch : String → Bool
  urlMatch : String → Bool
  parseFloat32 : String → Option Float
  parseFloat64 : String → Option Float
  formatFloat : Bool → Float → String
  formatFileHeader : Option Nat → String

/-- Concrete instantiation of `StdLib` used by closed evaluation theorems:
no string matches any pattern and no string parses as a float. -/
def stdNoMatch : StdLib where
  alphaDashMatch := fun _ => false
  alphaDashDotMatch := fun _ => false
  emailMatch := fun _ => false
  urlMatch := fun _ => false
  parseFloat32 := fun _ => none
  parseFloat64 := fun _ => none
  formatFloat := fun _ _ => ""
  formatFileHeader := fun _ => ""

/-! ### fmt.Sprintf("%v", x) -/

mutual

/-- Model of `fmt.Sprintf("%v", x)` on reified values: integers print in
decimal, strings verbatim, slices as bracketed space-separated elements,
structs as brace-wrapped space-separated fields, a non-nil pointer prints
`&` followed by its target (the only pointers rendered by the rules point
at structs) and a nil pointer prints `<nil>`; floats and file headers
defer to the `StdLib` stand-ins. -/
def sprintV (std : StdLib) : GoValue → String
  | .vInt _ n => toString n
  | .vUint _ n => toString n
  | .vBool b => if b then "true" else "false"
  | .vFloat is32 x => std.formatFloat is32 x
  | .vString s => s
  | .vSlice _ xs => "[" ++ sprintList std xs ++ "]"
  | .vStruct xs => "\x7b" ++ sprintList std xs ++ "\x7d"
  | .vPtr none => "<nil>"
  | .vPtr (some w) => "&" ++ sprintV std w
  | .vFileHeader h => std.formatFileHeader h

/-- Space-separated `%v` rendering of a list of values. -/
def sprintList (std : StdLib) : List GoValue → String
  | [] => ""
  | [x] => sprintV std x
  | x :: y :: xs => sprintV std x ++ " " ++ sprintList std (y :: xs)

end

example : sprintV stdNoMatch (.vString "abc") = "abc" := rfl
example : sprintV stdNoMatch (.vInt 64 (-3)) = "-3" := rfl

/-! ### Value coercion (setWithProperType, binding.go:378-438) -/

/-- Translation of `setWithProperType` (binding.go:378). The Go function
receives the field's kind, the raw string, the reflected field and the form
key, mutating the field and the (function-local) error list in place; here
it returns the new field value and the new error list. Kinds with no case
in the switch (slices, structs, pointers, file headers) leave both
untouched. -/
def setWithProperType (std : StdLib) (ty : GoType) (val : String) (structField : GoValue)
    (nameInTag : String) (errors : Errors) : GoValue × Errors :=
  match ty with
  | .tInt w =>
    let val := if val = "" then "0" else val
    match parseInt64 val with
    | none =>
      (structField, errors.add [nameInTag] IntegerTypeError "Value could not be parsed as integer")
    | some intVal => (.vInt w (truncInt w intVal), errors)
  | .tUint w =>
    let val := if val = "" then "0" else val
    match parseUint64 val with
    | none =>
      (structField,
        errors.add [nameInTag] IntegerTypeError "Value could not be parsed as unsigned integer")
    | some uintVal => (.vUint w (truncUint w uintVal), errors)
  | .tBool =>
    if val = "on" then (.vBool true, errors)
    else
      let val := if val = "" then "false" else val
      match parseBool val with
      | none =>
        (structField, errors.add [nameInTag] BooleanTypeError "Value could not be parsed as boolean")
      | some boolVal => if boolVal then (.vBool true, errors) else (structField, errors)
  | .tFloat true =>
    let val := if val = "" then "0.0" else val
    match std.parseFloat32 val with
    | none =>
      (structField,
        errors.add [nameInTag] FloatTypeError "Value could not be parsed as 32-bit float")
    | some floatVal => (.vFloat true floatVal, errors)
  | .tFloat false =>
    let val := if val = "" then "0.0" else val
    match std.parseFloat64 val with
    | none =>
      (structField,
        errors.add [nameInTag] FloatTypeError "Value could not be parsed as 64-bit float")
    | some floatVal => (.vFloat false floatVal, errors)
  | .tString => (.vString val, errors)
  | _ => (structField, errors)

/-! ### Rule evaluation and validateStruct (binding.go:197-286) -/

/-- Kind test used at binding.go:219. -/
def GoType.isStruct : GoType → Bool
  | .tStruct _ => true
  | _ => false

/-- Kind test used at binding.go:220-221 (`Ptr` whose `Elem` is a struct). -/
def GoType.isPtrToStruct : GoType → Bool
  | .tPtr (.tStruct _) => true
  | _ => false

/-- The numeric argument of a `MinSize(...)`/`MaxSize(...)` rule:
`strconv.Atoi(rule[8 : len(rule)-1])` with the error discarded
(binding.go:248, 259); the rule strings are ASCII so the byte slice is the
character slice. -/
def ruleArg (rule : String) : Int :=
  atoiLenient ⟨(rule.data.drop 8).dropLast⟩

/-- Translation of one arm of the rule switch in `validateStruct`
(binding.go:231-282), evaluated against the field's zero value and current
value. The cases are tried in source order; an unrecognized rule does
nothing. -/
def evalRule (std : StdLib) (field : FieldMeta) (zero fieldValue : GoValue) (rule : String)
    (errors : Errors) : Errors :=
  if rule = "Required" then
    if beqValue zero fieldValue then errors.add [field.name] RequiredError "Required"
    else errors
  else if rule = "AlphaDash" then
    if std.alphaDashMatch (sprintV std fieldValue) then
      errors.add [field.name] AlphaDashError "AlphaDash"
    else errors
  else if rule = "AlphaDashDot" then
    if std.alphaDashDotMatch (sprintV std fieldValue) then
      errors.add [field.name] AlphaDashDotError "AlphaDashDot"
    else errors
  else if strStartsWith rule "MinSize(" then
    let m := ruleArg rule
    match fieldValue with
    | .vString str =>
      if (str.data.length : Int) < m then errors.add [field.name] MinSizeError "MinSize"
      else errors
    | .vSlice _ xs =>
      if (xs.length : Int) < m then errors.add [field.name] MinSizeError "MinSize"
      else errors
    | _ => errors
  else if strStartsWith rule "MaxSize(" then
    let m := ruleArg rule
    match fieldValue with
    | .vString str =>
      if m < (str.data.length : Int) then errors.add [field.name] MaxSizeError "MaxSize"
      else errors
    | .vSlice _ xs =>
      if m < (xs.length : Int) then errors.add [field.name] MaxSizeError "MaxSize"
      else errors
    | _ => errors
  else if rule = "Email" then
    if ¬ std.emailMatch (sprintV std fieldValue) then errors.add [field.name] EmailError "Email"
    else errors
  else if rule = "Url" then
    let str := sprintV std fieldValue
    if str = "" then errors
    else if ¬ std.urlMatch str then errors.add [field.name] UrlError "Url"
    else errors
  else errors

/-- The rule loop of `validateStruct` (binding.go:226-283): the binding tag
is split on `;`, empty rules are skipped, the others are evaluated in
order, threading the error list. -/
def evalRules (std : StdLib) (field : FieldMeta) (zero fieldValue : GoValue) :
    List String → Errors → Errors
  | [], errors => errors
  | rule :: rest, errors =>
    let errors := if rule = "" then errors else evalRule std field zero fieldValue rule errors
    evalRules std field zero fieldValue rest errors

mutual

/-- Translation of `validateStruct` (binding.go:198): a pointer argument is
dereferenced first; then every field is visited in declaration order. The
non-struct fallthrough is unreachable from the entry points (Go reflection
would panic there). -/
def validateStruct (std : StdLib) (errors : Errors) (ty : GoType) (v : GoValue) : Errors :=
  match ty, v with
  | .tPtr t, .vPtr (some w) => validateStruct std errors t w
  | .tStruct fs, .vStruct vs => validateFields std errors fs vs
  | _, _ => errors

/-- The field loop of `validateStruct` (binding.go:207-284): skip ignored
(`form:"-"`) and unexported fields, recurse into struct values and non-nil
pointers to structs, then evaluate the field's rules. -/
def validateFields (std : StdLib) (errors : Errors) :
    List (FieldMeta × GoType) → List GoValue → Errors
  | [], _ => errors
  | _ :: _, [] => errors
  | (field, fty) :: fs, fv :: vs =>
    let errors :=
      if field.formTag = "-" ∨ ¬ field.exported then errors
      else
        let zero := zeroValue fty
        let errors :=
          if fty.isStruct ∨ (fty.isPtrToStruct ∧ ¬ beqValue zero fv) then
            validateStruct std errors fty fv
          else errors
        evalRules std field zero fv (splitSemi field.bindingTag) errors
    validateFields std errors fs vs

end

/-! ### Form binding (mapForm, binding.go:288-347) -/

/-- Raw multi-value form data: `map[string][]string`, keys not normalized. -/
abbrev FormMap : Type := List (String × List String)

/-- Uploaded files per key: `map[string][]*multipart.FileHeader`, with each
header an opaque handle id. -/
abbrev FileMap : Type := List (String × List Nat)

/-- Map lookup (`form[key]` with its ok-flag). -/
def lookupKey {α : Type} : List (String × α) → String → Option α
  | [], _ => none
  | (k2, v) :: rest, k => if k2 = k then some v else lookupKey rest k

/-- The element loop of the slice branch (binding.go:319-322):
`reflect.MakeSlice` creates `numElems` zero elements and each raw value is
coerced into its element, threading the error list in arrival order. -/
def coerceSliceElems (std : StdLib) (elemTy : GoType) (vals : List String) (key : String)
    (errors : Errors) : List GoValue × Errors :=
  match vals with
  | [] => ([], errors)
  | s :: rest =>
    let (x, errors) := setWithProperType std elemTy s (zeroValue elemTy) key errors
    let (xs, errors) := coerceSliceElems std elemTy rest key errors
    (x :: xs, errors)

/-- Translation of the leaf-field block of `mapForm` (binding.go:309-345):
fields without a `form` tag or that cannot be set are skipped; a key
present in the string map binds there (slice fields take all values,
others the first) and short-circuits the file map (`continue` at
binding.go:327); only otherwise are the file handles for the key
consulted. Keys mapped to an empty value list never come out of Go's form
parsing (the Go code would index out of range), so they bind nothing
here. -/
def bindLeafField (std : StdLib) (field : FieldMeta) (fty : GoType) (fv : GoValue)
    (form : FormMap) (formfile : FileMap) (errors : Errors) : GoValue × Errors :=
  if field.formTag = "" then (fv, errors)
  else if ¬ field.exported then (fv, errors)
  else
    match lookupKey form field.formTag with
    | some inputValue =>
      match fty, inputValue with
      | .tSlice elemTy, _ :: _ =>
        let (xs, errors) := coerceSliceElems std elemTy inputValue field.formTag errors
        (.vSlice false xs, errors)
      | _, v0 :: _ => setWithProperType std fty v0 fv field.formTag errors
      | _, [] => (fv, errors)
    | none =>
      match lookupKey formfile field.formTag with
      | none => (fv, errors)
      | some inputFile =>
        match fty, inputFile with
        | .tSlice .tFileHeader, _ :: _ =>
          (.vSlice false (inputFile.map (fun h => .vFileHeader (some h))), errors)
        | .tFileHeader, h0 :: _ => (.vFileHeader (some h0), errors)
        | _, _ => (fv, errors)

mutual

/-- Translation of `mapForm` (binding.go:289): the pointer passed from the
entry points is dereferenced, then every field of the struct is processed
in declaration order. Non-struct arguments are unreachable from the entry
points (Go reflection would panic on `NumField`). -/
def mapForm (std : StdLib) (ty : GoType) (v : GoValue) (form : FormMap) (formfile : FileMap)
    (errors : Errors) : GoValue × Errors :=
  match ty, v with
  | .tPtr t, .vPtr (some w) =>
    let (w2, errors) := mapForm std t w form formfile errors
    (.vPtr (some w2), errors)
  | .tStruct fs, .vStruct vs =>
    let (vs2, errors) := mapFields std fs vs form formfile errors
    (.vStruct vs2, errors)
  | _, _ => (v, errors)

/-- The field loop of `mapForm` (binding.go:297-346): each field is handled
by `bindOneField` in declaration order, threading the error list. -/
def mapFields (std : StdLib) :
    List (FieldMeta × GoType) → List GoValue → FormMap → FileMap → Errors →
      List GoValue × Errors
  | [], _, _, _, errors => ([], errors)
  | _ :: _, [], _, _, errors => ([], errors)
  | (field, fty) :: fs, fv :: vs, form, formfile, errors =>
    let (fv2, errors) := bindOneField std field fty fv form formfile errors
    let (vs2, errors) := mapFields std fs vs form formfile errors
    (fv2 :: vs2, errors)

/-- One iteration of the field loop of `mapForm` (binding.go:297-345). An
embedded (anonymous) pointer field is allocated fresh, recursed into, and
torn back down to nil when the recursion left it at its zero value
(binding.go:301-306); a struct field is recursed into in place; anything
else is a leaf field. -/
def bindOneField (std : StdLib) (field : FieldMeta) (fty : GoType) (fv : GoValue)
    (form : FormMap) (formfile : FileMap) (errors : Errors) : GoValue × Errors :=
  match fty, field.anonymous with
  | .tPtr elemTy, true =>
    let (inner, errors) := mapForm std elemTy (zeroValue elemTy) form formfile errors
    if beqValue inner (zeroValue elemTy) then ((.vPtr none : GoValue), errors)
    else (.vPtr (some inner), errors)
  | .tStruct gs, _ =>
    match fv with
    | .vStruct ws =>
      let (ws2, errors) := mapFields std gs ws form formfile errors
      ((.vStruct ws2 : GoValue), errors)
    | _ => (fv, errors)
  | _, _ => bindLeafField std field fty fv form formfile errors

end

/-! ### The Validate middleware (binding.go:163-188) -/

/-- The optional `Validator` interface: Go queries at runtime whether the
concrete type implements it; when it does, the hook receives the value and
the accumulated error list and returns the new list
(binding.go:176-177, 182-183). -/
abbrev ValidatorHook : Type := GoType → Option (GoValue → Errors → Errors)

/-- The element loop of `Validate` (binding.go:172-179): each slice element
goes through `validateStruct` and then through its type's `Validator` hook,
threading one error list. -/
def validateList (std : StdLib) (hook : ValidatorHook) (et : GoType) :
    List GoValue → Errors → Errors
  | [], errors => errors
  | e :: es, errors =>
    let errors := validateStruct std errors et e
    let errors :=
      match hook et with
      | some h => h e errors
      | none => errors
    validateList std hook et es errors

/-- Body of the `Validate` middleware (binding.go:163-188): a pointer (or
interface) argument is dereferenced for the kind test; a slice is validated
element by element; anything else goes through `validateStruct` and the
hook as one value (the original, possibly pointer, value — binding.go:181). -/
def Validate (std : StdLib) (hook : ValidatorHook) (ty : GoType) (v : GoValue) : Errors :=
  let kindView : GoType × GoValue :=
    match ty, v with
    | .tPtr t, .vPtr (some w) => (t, w)
    | _, _ => (ty, v)
  match kindView with
  | (.tSlice et, .vSlice _ elems) => validateList std hook et elems []
  | _ =>
    let errors := validateStruct std [] ty v
    match hook ty with
    | some h => h v errors
    | none => errors

/-! ### Entry points (Form and MultipartForm, binding.go:89-136) -/

/-- Kind test for `ensureNotPointer`. -/
def GoType.isPtr : GoType → Bool
  | .tPtr _ => true
  | _ => false

/-- Translation of `ensureNotPointer` (binding.go:441-445): panics (modelled
as `Except.error`) when the root schema value is a pointer. -/
def ensureNotPointer (ty : GoType) : Except String Unit :=
  if ty.isPtr then .error "Pointers are not accepted as binding models" else .ok ()

/-- Dereference of `obj.Elem()` when mapping the bound value to the context
(binding.go:454). -/
def derefOr : GoValue → GoValue
  | .vPtr (some w) => w
  | v => v

/-- Translation of the `Form` middleware body (binding.go:90-106) for one
request, given whether `ParseForm` failed and the parsed form.
`Except.error` models a Go panic. The `errors` slice is passed to `mapForm`
by value in the source, so additions made inside `mapForm` never reach the
caller's slice; the returned list is the deserialization errors followed by
the validation errors collected by `validateAndMap`
(binding.go:450-458). -/
def Form (std : StdLib) (hook : ValidatorHook) (ty : GoType) (parseFormErr : Option String)
    (form : FormMap) : Except String (GoValue × Errors) :=
  match ensureNotPointer ty with
  | .error e => .error e
  | .ok _ =>
    let errors : Errors :=
      match parseFormErr with
      | some msg => Errors.add [] [] DeserializationError msg
      | none => []
    let formStruct : GoValue := .vPtr (some (zeroValue ty))
    let (bound, _mapErrors) := mapForm std (.tPtr ty) formStruct form [] errors
    let vErrors := Validate std hook (.tPtr ty) bound
    .ok (derefOr bound, errors ++ vErrors)

/-- State of `ctx.Req` consulted by `MultipartForm`: the already-parsed
multipart form if any, the result of `ctx.Req.MultipartReader()` (an error
message, when that call fails), and what `multipartReader.ReadForm` would
return (a possibly absent form plus a possibly present parse error). -/
structure MultipartReqState where
  existingForm : Option (FormMap × FileMap)
  readerErr : Option String
  readFormResult : Option (FormMap × FileMap)
  readFormErr : Option String

/-- Translation of the `MultipartForm` middleware body (binding.go:113-136).
When `ctx.Req.MultipartForm` is nil and `MultipartReader` fails (or
`ReadForm` yields no form), the deserialization error is recorded but
`ctx.Req.MultipartForm` stays nil, and the unconditional
`ctx.Req.MultipartForm.Value` at binding.go:133 dereferences a nil pointer:
a run-time panic, modelled as `Except.error`. -/
def MultipartForm (std : StdLib) (hook : ValidatorHook) (ty : GoType)
    (req : MultipartReqState) : Except String (GoValue × Errors) :=
  match ensureNotPointer ty with
  | .error e => .error e
  | .ok _ =>
    let state : Option (FormMap × FileMap) × Errors :=
      match req.existingForm with
      | some f => (some f, [])
      | none =>
        match req.readerErr with
        | some msg => (none, Errors.add [] [] DeserializationError msg)
        | none =>
          let errors : Errors :=
            match req.readFormErr with
            | some msg => Errors.add [] [] DeserializationError msg
            | none => []
          (req.readFormResult, errors)
    match state with
    | (none, _) => .error "runtime error: invalid memory address or nil pointer dereference"
    | (some (form, files), errors) =>
      let formStruct : GoValue := .vPtr (some (zeroValue ty))
      let (bound, _mapErrors) := mapForm std (.tPtr ty) formStruct form files errors
      let vErrors := Validate std hook (.tPtr ty) bound
      .ok (derefOr bound, errors ++ vErrors)

/-! ### Error threading lemmas: every pass only appends to the error list -/

theorem Errors.add_eq (e : Errors) (f : List String) (c m : String) :
    Errors.add e f c m = e ++ [⟨f, c, m⟩] := rfl

theorem setWithProperType_split (std : StdLib) (ty : GoType) (val : String) (cur : GoValue)
    (tag : String) (errs : Errors) :
    setWithProperType std ty val cur tag errs =
      ((setWithProperType std ty val cur tag []).1,
        errs ++ (setWithProperType std ty val cur tag []).2) := by
  rcases ty with w | w | _ | is32 | _ | et | fs | et | _ <;>
    [skip; skip; skip; (rcases is32 with _ | _); skip; skip; skip; skip; skip] <;>
    simp only [setWithProperType, Errors.add_eq] <;>
    repeat' (first
      | rfl
      | simp
      | split)

theorem coerceSliceElems_split (std : StdLib) (elemTy : GoType) (vals : List String)
    (key : String) (errs : Errors) :
    coerceSliceElems std elemTy vals key errs =
      ((coerceSliceElems std elemTy vals key []).1,
        errs ++ (coerceSliceElems std elemTy vals key []).2) := by
  induction vals generalizing errs with
  | nil => simp [coerceSliceElems]
  | cons s rest ih =>
    simp only [coerceSliceElems]
    rw [setWithProperType_split std elemTy s (zeroValue elemTy) key errs]
    rw [ih (errs ++ (setWithProperType std elemTy s (zeroValue elemTy) key []).2)]
    rw [ih ((setWithProperType std elemTy s (zeroValue elemTy) key []).2)]
    simp

theorem evalRule_append (std : StdLib) (field : FieldMeta) (zero fv : GoValue) (rule : String)
    (errs : Errors) :
    evalRule std field zero fv rule errs = errs ++ evalRule std field zero fv rule [] := by
  unfold evalRule
  repeat' (first
    | rfl
    | simp
    | split)

theorem evalRules_append (std : StdLib) (field : FieldMeta) (zero fv : GoValue)
    (rules : List String) (errs : Errors) :
    evalRules std field zero fv rules errs = errs ++ evalRules std field zero fv rules [] := by
  induction rules generalizing errs with
  | nil => simp [evalRules]
  | cons rule rest ih =>
    simp only [evalRules]
    by_cases h : rule = ""
    · simp only [h, if_pos rfl]
      exact ih errs
    · simp only [if_neg h]
      rw [evalRule_append std field zero fv rule errs]
      rw [ih (errs ++ evalRule std field zero fv rule [])]
      rw [ih (evalRule std field zero fv rule [])]
      simp

mutual

theorem validateStruct_append (std : StdLib) (errs : Errors) (ty : GoType) (v : GoValue) :
    validateStruct std errs ty v = errs ++ validateStruct std [] ty v := by
  match ty, v with
  | .tPtr t, .vPtr (some w) =>
    rw [validateStruct, validateStruct]
    exact validateStruct_append std errs t w
  | .tStruct fs, .vStruct vs =>
    rw [validateStruct, validateStruct]
    exact validateFields_append std errs fs vs
  | .tInt _, _ | .tUint _, _ | .tBool, _ | .tFloat _, _ | .tString, _ | .tSlice _, _
  | .tFileHeader, _ =>
    simp [validateStruct]
  | .tPtr _, .vInt _ _ | .tPtr _, .vUint _ _ | .tPtr _, .vBool _ | .tPtr _, .vFloat _ _
  | .tPtr _, .vString _ | .tPtr _, .vSlice _ _ | .tPtr _, .vStruct _ | .tPtr _, .vPtr none
  | .tPtr _, .vFileHeader _ =>
    simp [validateStruct]
  | .tStruct _, .vInt _ _ | .tStruct _, .vUint _ _ | .tStruct _, .vBool _
  | .tStruct _, .vFloat _ _ | .tStruct _, .vString _ | .tStruct _, .vSlice _ _
  | .tStruct _, .vPtr _ | .tStruct _, .vFileHeader _ =>
    simp [validateStruct]

theorem validateFields_append (std : StdLib) (errs : Errors)
    (fs : List (FieldMeta × GoType)) (vs : List GoValue) :
    validateFields std errs fs vs = errs ++ validateFields std [] fs vs := by
  match fs, vs with
  | [], _ => simp [validateFields]
  | _ :: _, [] => simp [validateFields]
  | (field, fty) :: fs, fv :: vs =>
    rw [validateFields, validateFields]
    by_cases hskip : field.formTag = "-" ∨ ¬ field.exported
    · simp only [if_pos hskip]
      exact validateFields_append std errs fs vs
    · simp only [if_neg hskip]
      by_cases hrec : fty.isStruct ∨ (fty.isPtrToStruct ∧ ¬ beqValue (zeroValue fty) fv)
      · simp only [if_pos hrec]
        rw [validateStruct_append std errs fty fv]
        rw [evalRules_append std field (zeroValue fty) fv (splitSemi field.bindingTag)
          (errs ++ validateStruct std [] fty fv)]
        rw [evalRules_append std field (zeroValue fty) fv (splitSemi field.bindingTag)
          (validateStruct std [] fty fv)]
        rw [validateFields_append std
          (errs ++ validateStruct std [] fty fv ++
            evalRules std field (zeroValue fty) fv (splitSemi field.bindingTag) []) fs vs]
        rw [validateFields_append std
          (validateStruct std [] fty fv ++
            evalRules std field (zeroValue fty) fv (splitSemi field.bindingTag) []) fs vs]
        simp
      · simp only [if_neg hrec]
        rw [evalRules_append std field (zeroValue fty) fv (splitSemi field.bindingTag) errs]
        rw [validateFields_append std
          (errs ++ evalRules std field (zeroValue fty) fv (splitSemi field.bindingTag) [])
          fs vs]
        rw [validateFields_append std
          (evalRules std field (zeroValue fty) fv (splitSemi field.bindingTag) []) fs vs]
        simp

end

/-! ### Concrete schemas from common_test.go -/

/-- Field `Title string form:"title" binding:"Required"` of `Post`. -/
def titleField : FieldMeta := ⟨"Title", "title", "Required", false, true⟩

/-- Field `Content string form:"content"` of `Post`. -/
def contentField : FieldMeta := ⟨"Content", "content", "", false, true⟩

/-- The `Post` struct of common_test.go. -/
def PostType : GoType := .tStruct [(titleField, .tString), (contentField, .tString)]

/-- Field `Name string form:"name" binding:"Required"` of `Person`. -/
def nameField : FieldMeta := ⟨"Name", "name", "Required", false, true⟩

/-- Field `Email string form:"email"` of `Person`. -/
def emailField : FieldMeta := ⟨"Email", "email", "", false, true⟩

/-- The field list of the `Person` struct of common_test.go. -/
def personFields : List (FieldMeta × GoType) :=
  [(nameField, .tString), (emailField, .tString)]

/-- The embedded anonymous `*Person` field of `EmbedPerson`. -/
def embedPersonMeta : FieldMeta := ⟨"Person", "", "", true, true⟩

/-- Field `Ratings []int form:"rating"` of `BlogPost`. -/
def ratingsField : FieldMeta := ⟨"Ratings", "rating", "", false, true⟩

/-- A one-field schema holding only the `Ratings []int form:"rating"`
field. -/
def RatingsType : GoType := .tStruct [(ratingsField, .tSlice (.tInt 64))]

/-! ### C1 -/

/-- C1 (code bug): on the zero `Post` of common_test.go — whose `Title`
field carries `Required` and has form key `title` — `validateStruct`
appends exactly one required error, but its fieldPath is `["Title"]`, the
Go struct field name (binding.go:234 passes `field.Name`), not `["title"]`,
the field's key, which the claim and the repository's own test expectations
(`FieldNames: []string{"title"}` in the validation tests) prescribe. -/
theorem c1_required_fieldpath_uses_go_name_not_key :
    validateStruct stdNoMatch [] PostType (zeroValue PostType) =
        [⟨["Title"], RequiredError, "Required"⟩] ∧
      validateStruct stdNoMatch [] PostType (zeroValue PostType) ≠
        [⟨["title"], RequiredError, "Required"⟩] := by
  refine ⟨rfl, ?_⟩
  decide

/-! ### C3 -/

/-- C3: boolean coercion in `setWithProperType` (binding.go:400-414): the
literal "on" writes `true`; the empty string leaves a zero field at `false`
with no error; any other string is parsed with `strconv.ParseBool`, a parse
failure appending exactly one boolean-type error at the field's key with
the field untouched; a successfully parsed `false` is never written; a
parsed `true` is written. -/
theorem c3_bool_coercion (std : StdLib) (val : String) (cur : GoValue) (key : String)
    (errs : Errors) :
    (setWithProperType std .tBool "on" cur key errs = (.vBool true, errs)) ∧
      (setWithProperType std .tBool "" (.vBool false) key errs = (.vBool false, errs)) ∧
      (val ≠ "on" → val ≠ "" → parseBool val = none →
        setWithProperType std .tBool val cur key errs =
          (cur, errs ++ [⟨[key], BooleanTypeError, "Value could not be parsed as boolean"⟩])) ∧
      (val ≠ "on" → parseBool val = some false →
        setWithProperType std .tBool val cur key errs = (cur, errs)) ∧
      (val ≠ "on" → parseBool val = some true →
        setWithProperType std .tBool val cur key errs = (.vBool true, errs)) := by
  refine ⟨rfl, rfl, ?_, ?_, ?_⟩
  · intro hon hempty hparse
    simp [setWithProperType, hon, hempty, hparse, Errors.add_eq]
  · intro hon hparse
    have hempty : val ≠ "" := by
      intro h
      rw [h, show parseBool "" = none from rfl] at hparse
      exact Option.noConfusion hparse
    simp [setWithProperType, hon, hempty, hparse]
  · intro hon hparse
    have hempty : val ≠ "" := by
      intro h
      rw [h, show parseBool "" = none from rfl] at hparse
      exact Option.noConfusion hparse
    simp [setWithProperType, hon, hempty, hparse]

/-- C3 witness: the raw value "notabool" fails to parse, appends one
boolean-type error at the key and leaves the zero field untouched. -/
theorem c3_bool_coercion_witness :
    setWithProperType stdNoMatch .tBool "notabool" (.vBool false) "b" [] =
      (.vBool false, [⟨["b"], BooleanTypeError, "Value could not be parsed as boolean"⟩]) :=
  (c3_bool_coercion stdNoMatch "notabool" (.vBool false) "b" []).2.2.1 (by decide) (by decide)
    (by decide)

/-! ### C5 -/

/-- C5 counterexample: coercing "300" into an 8-bit signed integer field.
The claim says the string is parsed at the field's declared bit width, so
300 would overflow, append one integer-type error and leave the field at
zero; the code parses at 64 bits (binding.go:384, success) and
`reflect.Value.SetInt` truncates the store, so the field becomes 44 and no
error is appended. -/
theorem c5_integer_width_counterexample :
    setWithProperType stdNoMatch (.tInt 8) "300" (.vInt 8 0) "age" [] = (.vInt 8 44, []) ∧
      (GoValue.vInt 8 44 ≠ .vInt 8 0) := by
  refine ⟨rfl, ?_⟩
  intro h
  injection h with h1 h2
  exact absurd h2 (by decide)

/-- C5 amended: integer coercion (binding.go:380-399) parses the raw string
as a 64-bit base-10 integer regardless of the declared width — the empty
string coerces to 0; on a 64-bit parse failure exactly one integer-type
error is appended with fieldPath the field's external key and the field is
left at its previous value; on success the 64-bit value is stored truncated
to the field's width and no error is appended. Signed and unsigned alike. -/
theorem c5_amended_integer_coercion (std : StdLib) (w : Nat) (val : String) (cur : GoValue)
    (key : String) (errs : Errors) :
    (val ≠ "" → parseInt64 val = none →
      setWithProperType std (.tInt w) val cur key errs =
        (cur, errs ++ [⟨[key], IntegerTypeError, "Value could not be parsed as integer"⟩])) ∧
      (∀ n, parseInt64 val = some n →
        setWithProperType std (.tInt w) val cur key errs = (.vInt w (truncInt w n), errs)) ∧
      (setWithProperType std (.tInt w) "" cur key errs = (.vInt w 0, errs)) ∧
      (val ≠ "" → parseUint64 val = none →
        setWithProperType std (.tUint w) val cur key errs =
          (cur,
            errs ++
              [⟨[key], IntegerTypeError, "Value could not be parsed as unsigned integer"⟩])) ∧
      (∀ n, parseUint64 val = some n →
        setWithProperType std (.tUint w) val cur key errs = (.vUint w (truncUint w n), errs)) ∧
      (setWithProperType std (.tUint w) "" cur key errs = (.vUint w 0, errs)) := by
  refine ⟨?_, ?_, ?_, ?_, ?_, ?_⟩
  · intro hval hparse
    simp [setWithProperType, hval, hparse, Errors.add_eq]
  · intro n hparse
    have hval : val ≠ "" := by
      intro h
      rw [h, show parseInt64 "" = none from rfl] at hparse
      exact Option.noConfusion hparse
    simp [setWithProperType, hval, hparse]
  · have h0 : parseInt64 "0" = some 0 := rfl
    simp [setWithProperType, h0, truncInt]
  · intro hval hparse
    simp [setWithProperType, hval, hparse, Errors.add_eq]
  · intro n hparse
    have hval : val ≠ "" := by
      intro h
      rw [h, show parseUint64 "" = none from rfl] at hparse
      exact Option.noConfusion hparse
    simp [setWithProperType, hval, hparse]
  · have h0 : parseUint64 "0" = some 0 := rfl
    simp [setWithProperType, h0, truncUint]

/-- C5 amended witness: "abc" fails the 64-bit parse, appending one
integer-type error at key "age" and leaving the field at zero. -/
theorem c5_amended_integer_coercion_witness :
    setWithProperType stdNoMatch (.tInt 8) "abc" (.vInt 8 0) "age" [] =
      (.vInt 8 0, [⟨["age"], IntegerTypeError, "Value could not be parsed as integer"⟩]) :=
  (c5_amended_integer_coercion stdNoMatch 8 "abc" (.vInt 8 0) "age" []).1 (by decide) (by decide)

/-! ### C6 -/

/-- C6: MinSize/MaxSize rule evaluation (binding.go:247-268). For a field
whose binding tag carries one MinSize rule with numeric argument M (the
rule string is constrained through exactly the dispatch tests the code
performs, so every concrete spelling MinSize(M) qualifies), a string value
of N Unicode code points records exactly one MinSize error iff N < M and a
slice of N elements likewise; symmetrically a MaxSize(M) rule records
exactly one MaxSize error iff N > M. -/
theorem c6_minsize_maxsize (std : StdLib) (field : FieldMeta) (zero : GoValue)
    (rmin rmax : String) (M : Nat) (s : String) (nilq : Bool) (xs : List GoValue)
    (errs : Errors)
    (hmin1 : rmin ≠ "") (hmin2 : rmin ≠ "Required") (hmin3 : rmin ≠ "AlphaDash")
    (hmin4 : rmin ≠ "AlphaDashDot") (hmin5 : strStartsWith rmin "MinSize(" = true)
    (hminArg : ruleArg rmin = (M : Int))
    (hmax1 : rmax ≠ "") (hmax2 : rmax ≠ "Required") (hmax3 : rmax ≠ "AlphaDash")
    (hmax4 : rmax ≠ "AlphaDashDot") (hmax5 : strStartsWith rmax "MinSize(" = false)
    (hmax6 : strStartsWith rmax "MaxSize(" = true) (hmaxArg : ruleArg rmax = (M : Int)) :
    (evalRules std field zero (.vString s) [rmin] errs =
        errs ++
          (if s.data.length < M then [⟨[field.name], MinSizeError, "MinSize"⟩] else [])) ∧
      (evalRules std field zero (.vSlice nilq xs) [rmin] errs =
        errs ++ (if xs.length < M then [⟨[field.name], MinSizeError, "MinSize"⟩] else [])) ∧
      (evalRules std field zero (.vString s) [rmax] errs =
        errs ++
          (if M < s.data.length then [⟨[field.name], MaxSizeError, "MaxSize"⟩] else [])) ∧
      (evalRules std field zero (.vSlice nilq xs) [rmax] errs =
        errs ++ (if M < xs.length then [⟨[field.name], MaxSizeError, "MaxSize"⟩] else [])) := by
  refine ⟨?_, ?_, ?_, ?_⟩ <;>
    simp only [evalRules, if_neg hmin1, if_neg hmax1] <;>
    simp only [evalRule, if_neg hmin2, if_neg hmin3, if_neg hmin4, if_neg hmax2, if_neg hmax3,
      if_neg hmax4, hmin5, hmax5, hmax6, if_pos rfl, Bool.false_eq_true, if_false, if_true,
      hminArg, hmaxArg, Errors.add_eq] <;>
    split <;>
    split <;>
    simp_all <;>
    omega

/-- C6 witness: the rules MinSize(5) and MaxSize(5) on the 4-code-point
string "1234" and on a 6-element slice, at both violating and
non-violating sizes. -/
theorem c6_minsize_maxsize_witness :
    evalRules stdNoMatch titleField (zeroValue .tString) (.vString "1234") ["MinSize(5)"] [] =
        [⟨["Title"], MinSizeError, "MinSize"⟩] := by
  have h := (c6_minsize_maxsize stdNoMatch titleField (zeroValue .tString) "MinSize(5)"
    "MaxSize(5)" 5 "1234" false [] [] (by decide) (by decide) (by decide) (by decide)
    (by decide) (by decide) (by decide) (by decide) (by decide) (by decide) (by decide)
    (by decide) (by decide)).1
  rw [h]
  decide

/-! ### C7 -/

/-- Field `Link string form:"link" binding:"Url;Required"`, exercising a
rule that follows a Url rule on the same field. -/
def urlReqField : FieldMeta := ⟨"Link", "link", "Url;Required", false, true⟩

/-- One-field schema around `urlReqField`. -/
def UrlReqType : GoType := .tStruct [(urlReqField, .tString)]

/-- C7 counterexample: on a field tagged `Url;Required` holding the empty
string, the claim says the empty value exempts the field and no further
rules are evaluated for that iteration, so no error would be recorded; the
code's `continue` at binding.go:277 only moves to the next rule, which
fires, so validation records the Required error. -/
theorem c7_url_empty_counterexample :
    validateStruct stdNoMatch [] UrlReqType (zeroValue UrlReqType) =
        [⟨["Link"], RequiredError, "Required"⟩] ∧
      validateStruct stdNoMatch [] UrlReqType (zeroValue UrlReqType) ≠ [] := by
  refine ⟨rfl, ?_⟩
  decide

/-- C7 amended: a Url rule on an empty stringified value records no Url
violation and evaluation simply proceeds with the field's remaining rules
(binding.go:276-277); on a non-empty value the rule records exactly one Url
error iff the value fails the urlPattern match (binding.go:278-280). -/
theorem c7_url_amended (std : StdLib) (field : FieldMeta) (zero : GoValue)
    (rest : List String) (errs : Errors) (s : String) :
    (evalRules std field zero (.vString "") ("Url" :: rest) errs =
        evalRules std field zero (.vString "") rest errs) ∧
      (s ≠ "" →
        evalRule std field zero (.vString s) "Url" errs =
          errs ++ (if std.urlMatch s then [] else [⟨[field.name], UrlError, "Url"⟩])) := by
  constructor
  · rfl
  · intro hs
    show (if s = "" then errs
        else if ¬ std.urlMatch s = true then Errors.add errs [field.name] UrlError "Url"
        else errs) = _
    rw [if_neg hs]
    cases hb : std.urlMatch s <;> simp [hb, Errors.add_eq]

/-- C7 amended witness: the non-empty value "," fails the pattern
stand-in, recording exactly one Url error. -/
theorem c7_url_amended_witness :
    evalRule stdNoMatch urlReqField (zeroValue .tString) (.vString ",") "Url" [] =
      [⟨["Link"], UrlError, "Url"⟩] := by
  have h := (c7_url_amended stdNoMatch urlReqField (zeroValue .tString) [] [] ",").2
    (by decide)
  rw [h]
  rfl

/-! ### C10 -/

/-- C10: in the leaf-field binding of `mapForm` (binding.go:314-344), when
the field's key is present in the raw string-value map the result does not
depend on the file map at all — the string values are bound and the file
handles for that key are never consulted (`continue` at binding.go:327);
file binding is reached only when the key is absent from the string map. -/
theorem c10_form_key_shadows_files (std : StdLib) (field : FieldMeta) (fty : GoType)
    (fv : GoValue) (form : FormMap) (formfile formfile2 : FileMap) (errs : Errors)
    (vs : List String) (hlook : lookupKey form field.formTag = some vs) :
    bindLeafField std field fty fv form formfile errs =
      bindLeafField std field fty fv form formfile2 errs := by
  unfold bindLeafField
  rw [hlook]

/-- C10 witness: a file-header field whose key carries both a string value
and a file handle binds identically whether or not the file map holds the
handle (the string branch runs and touches nothing for this kind). -/
theorem c10_form_key_shadows_files_witness :
    bindLeafField stdNoMatch ⟨"HeaderImage", "headerImage", "", false, true⟩ .tFileHeader
        (.vFileHeader none) [("headerImage", ["x.png"])] [("headerImage", [9])] [] =
      bindLeafField stdNoMatch ⟨"HeaderImage", "headerImage", "", false, true⟩ .tFileHeader
        (.vFileHeader none) [("headerImage", ["x.png"])] [] [] :=
  c10_form_key_shadows_files stdNoMatch ⟨"HeaderImage", "headerImage", "", false, true⟩
    .tFileHeader (.vFileHeader none) [("headerImage", ["x.png"])] [("headerImage", [9])] [] []
    ["x.png"] rfl

/-! ### C4 -/

/-- C6-independent slice-kind test (binding.go:317). -/
def GoType.isSlice : GoType → Bool
  | .tSlice _ => true
  | _ => false

/-- The value component of a coercion does not depend on the incoming error
list. -/
theorem setWithProperType_fst (std : StdLib) (ty : GoType) (val : String) (cur : GoValue)
    (tag : String) (errs : Errors) :
    (setWithProperType std ty val cur tag errs).1 = (setWithProperType std ty val cur tag []).1 := by
  rw [setWithProperType_split std ty val cur tag errs]

/-- The values produced by the slice-element loop are each element's
independent coercion from the element zero value, in arrival order. -/
theorem coerceSliceElems_values (std : StdLib) (elemTy : GoType) (vals : List String)
    (key : String) (errs : Errors) :
    (coerceSliceElems std elemTy vals key errs).1 =
      vals.map (fun s => (setWithProperType std elemTy s (zeroValue elemTy) key []).1) := by
  induction vals generalizing errs with
  | nil => rfl
  | cons s rest ih =>
    simp only [coerceSliceElems, List.map_cons]
    rw [setWithProperType_split std elemTy s (zeroValue elemTy) key errs]
    exact congrArg _ (ih _)

/-- C4 counterexample: a slice-of-integer field whose key arrived with
exactly one value. The claim's "more than one value" condition sends this
to scalar coercion — which for a slice-kind field would leave the field at
its nil zero value (the coercion switch has no slice case) — but the code
takes the slice branch for any `numElems > 0` (binding.go:317) and builds
the one-element sequence `[7]`. -/
theorem c4_single_value_slice_counterexample :
    (mapForm stdNoMatch RatingsType (zeroValue RatingsType) [("rating", ["7"])] [] []).1 =
        .vStruct [.vSlice false [.vInt 64 7]] ∧
      (GoValue.vSlice false [.vInt 64 7]) ≠
        (setWithProperType stdNoMatch (.tSlice (.tInt 64)) "7"
          (zeroValue (.tSlice (.tInt 64))) "rating" []).1 := by
  refine ⟨rfl, ?_⟩
  intro h
  injection h with h1 h2
  exact Bool.noConfusion h1

/-- C4 amended: in the leaf-field binding (binding.go:314-327), a
slice-kind field whose key is present with at least one value receives a
sequence of exactly that length, each element coerced independently from
the element zero value and in arrival order; a non-slice field takes only
the first arrived value, coerced as a scalar. -/
theorem c4_amended_slice_binding (std : StdLib) (field : FieldMeta) (et fty : GoType)
    (fv : GoValue) (form : FormMap) (formfile : FileMap) (errs : Errors) (vs : List String) :
    (field.formTag ≠ "" → field.exported = true →
      lookupKey form field.formTag = some vs → vs ≠ [] →
        (bindLeafField std field (.tSlice et) fv form formfile errs).1 =
          .vSlice false
            (vs.map (fun s => (setWithProperType std et s (zeroValue et) field.formTag []).1))) ∧
      (field.formTag ≠ "" → field.exported = true →
        lookupKey form field.formTag = some vs → fty.isSlice = false →
          ∀ v0 rest, vs = v0 :: rest →
            bindLeafField std field fty fv form formfile errs =
              setWithProperType std fty v0 fv field.formTag errs) := by
  constructor
  · intro htag hexp hlook hne
    match vs, hne with
    | v0 :: rest, _ =>
      rcases hc : coerceSliceElems std et (v0 :: rest) field.formTag errs with ⟨xs, es⟩
      have hv := coerceSliceElems_values std et (v0 :: rest) field.formTag errs
      rw [hc] at hv
      unfold bindLeafField
      rw [hlook]
      simp [htag, hexp, hc, hv]
  · intro htag hexp hlook hslice v0 rest hvs
    subst hvs
    unfold bindLeafField
    rw [if_neg htag, hexp]
    rw [hlook]
    cases fty <;> simp_all [GoType.isSlice]

/-- C4 amended witness: the repeated key rating=1&rating=2&rating=3 bound
into a slice-of-integer field yields the sequence [1, 2, 3] in arrival
order. -/
theorem c4_amended_slice_binding_witness :
    (bindLeafField stdNoMatch ratingsField (.tSlice (.tInt 64))
        (zeroValue (.tSlice (.tInt 64))) [("rating", ["1", "2", "3"])] [] []).1 =
      .vSlice false [.vInt 64 1, .vInt 64 2, .vInt 64 3] := by
  have h := (c4_amended_slice_binding stdNoMatch ratingsField (.tInt 64) .tString
    (zeroValue (.tSlice (.tInt 64))) [("rating", ["1", "2", "3"])] [] []
    ["1", "2", "3"]).1 (by decide) rfl rfl (by decide)
  rw [h]
  rfl

/-! ### C2 -/

theorem mapFields_cons (std : StdLib) (field : FieldMeta) (fty : GoType)
    (fs : List (FieldMeta × GoType)) (fv : GoValue) (vs : List GoValue) (form : FormMap)
    (formfile : FileMap) (errs : Errors) :
    mapFields std ((field, fty) :: fs) (fv :: vs) form formfile errs =
      ((bindOneField std field fty fv form formfile errs).1 ::
          (mapFields std fs vs form formfile
            (bindOneField std field fty fv form formfile errs).2).1,
        (mapFields std fs vs form formfile
          (bindOneField std field fty fv form formfile errs).2).2) := by
  rw [mapFields]

theorem zeroValue_struct (gs : List (FieldMeta × GoType)) :
    zeroValue (.tStruct gs) = .vStruct (zeroFields gs) := by
  rw [zeroValue]

theorem mapForm_struct (std : StdLib) (gs : List (FieldMeta × GoType)) (ws : List GoValue)
    (form : FormMap) (formfile : FileMap) (errs : Errors) :
    mapForm std (.tStruct gs) (.vStruct ws) form formfile errs =
      ((.vStruct (mapFields std gs ws form formfile errs).1 : GoValue),
        (mapFields std gs ws form formfile errs).2) := by
  rw [mapForm]

theorem beqValue_struct (xs ys : List GoValue) :
    beqValue (.vStruct xs) (.vStruct ys) = beqList xs ys := by
  rw [beqValue]

theorem zeroFields_eq_map (gs : List (FieldMeta × GoType)) :
    zeroFields gs = gs.map (fun f => zeroValue f.2) := by
  induction gs with
  | nil => rfl
  | cons g gs ih => simp [zeroFields, ih]

theorem mapFields_length (std : StdLib) (fs : List (FieldMeta × GoType)) (vs : List GoValue)
    (form : FormMap) (formfile : FileMap) (errs : Errors) :
    ((mapFields std fs vs form formfile errs).1).length = min fs.length vs.length := by
  induction fs generalizing vs errs with
  | nil => simp [mapFields]
  | cons f fs ih =>
    rcases f with ⟨field, fty⟩
    cases vs with
    | nil => simp [mapFields]
    | cons fv vs =>
      rw [mapFields_cons]
      have := ih vs (bindOneField std field fty fv form formfile errs).2
      simp only [List.length_cons] at this ⊢
      rw [this]
      omega

theorem beqList_eq_true_iff (xs ys : List GoValue) :
    beqList xs ys = true ↔
      xs.length = ys.length ∧
        ∀ i (h1 : i < xs.length) (h2 : i < ys.length),
          beqValue (xs.get ⟨i, h1⟩) (ys.get ⟨i, h2⟩) = true := by
  induction xs generalizing ys with
  | nil =>
    cases ys with
    | nil => simp [beqList]
    | cons y ys => simp [beqList]
  | cons x xs ih =>
    cases ys with
    | nil => simp [beqList]
    | cons y ys =>
      simp only [beqList, Bool.and_eq_true, ih, List.length_cons]
      constructor
      · rintro ⟨hxy, hlen, hall⟩
        refine ⟨by omega, ?_⟩
        intro i h1 h2
        cases i with
        | zero => simpa using hxy
        | succ n =>
          simpa using hall n (by simpa using h1) (by simpa using h2)
      · rintro ⟨hlen, hall⟩
        refine ⟨by simpa using hall 0 (by simp) (by simp), by omega, ?_⟩
        intro i h1 h2
        simpa using hall (i + 1) (by simpa using h1) (by simpa using h2)

/-- C2: the embedded-pointer branch of `mapForm` (binding.go:301-306). For
an anonymous pointer-to-struct field, a zero instance is allocated and
recursed into; afterwards the field is nil exactly when every promoted
inner field is still at the zero value of its declared type, and otherwise
the field holds the (possibly partially filled) recursed substructure. -/
theorem c2_embedded_pointer (std : StdLib) (gs : List (FieldMeta × GoType))
    (field : FieldMeta) (fv : GoValue) (form : FormMap) (formfile : FileMap) (errs : Errors)
    (hanon : field.anonymous = true) :
    ∃ ws : List GoValue,
      (mapForm std (.tStruct gs) (zeroValue (.tStruct gs)) form formfile errs).1 =
          .vStruct ws ∧
        ws.length = gs.length ∧
        ((mapFields std [(field, .tPtr (.tStruct gs))] [fv] form formfile errs).1 =
          [if beqList ws (zeroFields gs) then GoValue.vPtr none
            else .vPtr (some (.vStruct ws))]) ∧
        (beqList ws (zeroFields gs) = true ↔
          ∀ i (h1 : i < ws.length) (h2 : i < gs.length),
            beqValue (ws.get ⟨i, h1⟩) (zeroValue ((gs.get ⟨i, h2⟩).2)) = true) := by
  refine ⟨(mapFields std gs (zeroFields gs) form formfile errs).1, ?_, ?_, ?_, ?_⟩
  · rw [zeroValue_struct, mapForm_struct]
  · rw [mapFields_length]
    have := zeroFields_eq_map gs
    have hlen : (zeroFields gs).length = gs.length := by rw [this]; simp
    omega
  · rw [mapFields_cons]
    have hone : bindOneField std field (.tPtr (.tStruct gs)) fv form formfile errs =
        (if beqList (mapFields std gs (zeroFields gs) form formfile errs).1 (zeroFields gs)
          then (GoValue.vPtr none,
            (mapFields std gs (zeroFields gs) form formfile errs).2)
          else (.vPtr (some (.vStruct (mapFields std gs (zeroFields gs) form formfile errs).1)),
            (mapFields std gs (zeroFields gs) form formfile errs).2)) := by
      unfold bindOneField
      rw [hanon]
      dsimp only
      rw [zeroValue_struct, mapForm_struct]
      dsimp only
      rw [beqValue_struct]
    rw [hone]
    cases hb : beqList (mapFields std gs (zeroFields gs) form formfile errs).1 (zeroFields gs) <;>
      simp [hb, mapFields]
  · rw [beqList_eq_true_iff]
    have hzf : (zeroFields gs).length = gs.length := by rw [zeroFields_eq_map]; simp
    have hws : ((mapFields std gs (zeroFields gs) form formfile errs).1).length = gs.length := by
      rw [mapFields_length, hzf]
      omega
    constructor
    · rintro ⟨hlen, hall⟩
      intro i h1 h2
      have hz : (zeroFields gs).get ⟨i, by omega⟩ = zeroValue ((gs.get ⟨i, h2⟩).2) := by
        have := zeroFields_eq_map gs
        simp [this, List.getElem_map]
      rw [← hz]
      exact hall i h1 (by omega)
    · intro hall
      refine ⟨by omega, ?_⟩
      intro i h1 h2
      have hz : (zeroFields gs).get ⟨i, h2⟩ = zeroValue ((gs.get ⟨i, by omega⟩).2) := by
        have := zeroFields_eq_map gs
        simp [this, List.getElem_map]
      rw [hz]
      exact hall i h1 (by omega)

/-- C2 witness: the `EmbedPerson` schema of common_test.go. With a form
supplying `name=X`, the embedded `*Person` resolves to a present, partially
filled substructure; the pointwise zero test matches the nil test. -/
theorem c2_embedded_pointer_witness :
    (∃ ws : List GoValue,
      (mapForm stdNoMatch (.tStruct personFields) (zeroValue (.tStruct personFields))
            [("name", ["X"])] [] []).1 = .vStruct ws ∧
        ws.length = personFields.length ∧
        ((mapFields stdNoMatch [(embedPersonMeta, .tPtr (.tStruct personFields))] [.vPtr none]
            [("name", ["X"])] [] []).1 =
          [if beqList ws (zeroFields personFields) then GoValue.vPtr none
            else .vPtr (some (.vStruct ws))]) ∧
        (beqList ws (zeroFields personFields) = true ↔
          ∀ i (h1 : i < ws.length) (h2 : i < personFields.length),
            beqValue (ws.get ⟨i, h1⟩) (zeroValue ((personFields.get ⟨i, h2⟩).2)) = true)) ∧
      (mapFields stdNoMatch [(embedPersonMeta, .tPtr (.tStruct personFields))] [.vPtr none]
          [("name", ["X"])] [] []).1 =
        [.vPtr (some (.vStruct [.vString "X", .vString ""]))] :=
  ⟨c2_embedded_pointer stdNoMatch personFields embedPersonMeta (.vPtr none)
      [("name", ["X"])] [] [] rfl,
    rfl⟩

/-! ### C8 -/

/-- On a non-slice argument (also through one pointer dereference) the
`Validate` middleware runs `validateStruct` on the original value and then
its type's hook (binding.go:180-184). -/
theorem Validate_single (std : StdLib) (hook : ValidatorHook) (ty : GoType) (v : GoValue)
    (h1 : ty.isSlice = false) (h2 : ∀ t, ty = .tPtr t → t.isSlice = false) :
    Validate std hook ty v =
      (match hook ty with
      | some h => h v (validateStruct std [] ty v)
      | none => validateStruct std [] ty v) := by
  cases ty <;> try rfl
  case tSlice et => simp [GoType.isSlice] at h1
  case tPtr t =>
    cases v <;> try rfl
    case vPtr o =>
      cases o with
      | none => rfl
      | some w =>
        have ht := h2 t rfl
        cases t <;> try rfl
        case tSlice et => simp [GoType.isSlice] at ht

/-- The element loop of `Validate` equals the in-order concatenation of the
per-element runs, provided the hook appends independently of the incoming
prefix. -/
theorem validateList_concat (std : StdLib) (hook : ValidatorHook) (et : GoType)
    (es : List GoValue) (errs : Errors)
    (hhook : ∀ h, hook et = some h → ∀ e pre tail, h e (pre ++ tail) = pre ++ h e tail) :
    validateList std hook et es errs =
      errs ++ (es.map (fun e => validateList std hook et [e] [])).flatten := by
  induction es generalizing errs with
  | nil => simp [validateList]
  | cons e es ih =>
    have hsing : validateList std hook et [e] [] =
        (match hook et with
        | some h => h e (validateStruct std [] et e)
        | none => validateStruct std [] et e) := by
      cases hh : hook et <;> simp [validateList, hh]
    rw [validateList]
    rw [validateStruct_append std errs et e]
    cases hh : hook et with
    | none =>
      simp only [hh]
      rw [ih]
      simp [hsing, hh]
    | some h =>
      simp only [hh]
      rw [hhook h hh e errs (validateStruct std [] et e)]
      rw [ih]
      simp [hsing, hh]

/-- C8: validating a slice of K values (binding.go:172-179) yields exactly
the in-order concatenation of the error lists produced by validating each
element independently — `validateStruct` plus the element type's custom
`Validator` hook — with fieldPaths unmodified. The hook is assumed to
append its own errors independently of the error prefix it receives (the
contract the `Validator` interface documents, satisfied by e.g. the test
suite's length hook), and the element type is not itself a slice kind. -/
theorem c8_list_validation (std : StdLib) (hook : ValidatorHook) (et : GoType) (nilq : Bool)
    (elems : List GoValue)
    (h1 : et.isSlice = false) (h2 : ∀ t, et = .tPtr t → t.isSlice = false)
    (hhook : ∀ t h, hook t = some h → ∀ e pre tail, h e (pre ++ tail) = pre ++ h e tail) :
    Validate std hook (.tSlice et) (.vSlice nilq elems) =
      (elems.map (fun e => Validate std hook et e)).flatten := by
  have hv : Validate std hook (.tSlice et) (.vSlice nilq elems) =
      validateList std hook et elems [] := rfl
  rw [hv, validateList_concat std hook et elems [] (fun h hh => hhook et h hh)]
  have hone : ∀ e, validateList std hook et [e] [] = Validate std hook et e := by
    intro e
    rw [Validate_single std hook et e h1 h2]
    cases hh : hook et <;> simp [validateList, hh]
  simp only [hone, List.nil_append]

/-- The custom hook of the test suite's `Post.Validate`: on struct values
whose first field is a string shorter than 10 code points it appends one
LengthError; it appends independently of the incoming prefix. -/
def lengthHook : ValidatorHook := fun t =>
  match t with
  | .tStruct _ => some (fun e errs =>
      match e with
      | .vStruct (.vString s :: _) =>
        if s.data.length < 10 then errs ++ [⟨["title"], "LengthError", "Life is too short"⟩]
        else errs
      | _ => errs)
  | _ => none

theorem lengthHook_prefix_free :
    ∀ t h, lengthHook t = some h → ∀ e pre tail, h e (pre ++ tail) = pre ++ h e tail := by
  intro t h hh e pre tail
  cases t <;> try exact Option.noConfusion hh
  case tStruct gs =>
    injection hh with hf
    subst hf
    cases e <;> try simp
    case vStruct fs =>
      cases fs with
      | nil => simp
      | cons x xs =>
        cases x <;> try simp
        case vString s =>
          by_cases hl : s.length < 10
          · rw [if_pos hl, if_pos hl]
          · rw [if_neg hl, if_neg hl]

/-- C8 witness: a two-element slice of `Post` values, the first with a
9-code-point title that trips the custom hook, the second clean; the run
over the slice equals the concatenation of the independent runs. -/
theorem c8_list_validation_witness :
    Validate stdNoMatch lengthHook (.tSlice PostType)
        (.vSlice false
          [.vStruct [.vString "Too Short", .vString "c"],
            .vStruct [.vString "A Sufficiently Long Title", .vString ""]]) =
      [⟨["title"], "LengthError", "Life is too short"⟩] := by
  rw [c8_list_validation stdNoMatch lengthHook PostType false
    [.vStruct [.vString "Too Short", .vString "c"],
      .vStruct [.vString "A Sufficiently Long Title", .vString ""]]
    rfl (fun t ht => GoType.noConfusion ht) lengthHook_prefix_free]
  rfl

/-! ### C9 -/

/-- C9 (code bug): the `MultipartForm` entry point invoked with a
non-pointer schema root on a request whose `MultipartReader` call fails
(any request that is not well-formed multipart): the deserialization error
is recorded at binding.go:124, but `ctx.Req.MultipartForm` is still nil and
binding.go:133 dereferences it unconditionally — a run-time panic on
ordinary bad input, while the claim allows a fatal condition only for a
pointer schema root (and `ensureNotPointer` accepts this root). -/
theorem c9_multipart_nil_deref_panics :
    MultipartForm stdNoMatch (fun _ => none) PostType
        ⟨none, some "no multipart boundary param in Content-Type", none, none⟩ =
        .error "runtime error: invalid memory address or nil pointer dereference" ∧
      ensureNotPointer PostType = .ok () :=
  ⟨rfl, rfl⟩

example : beqValue (zeroValue .tString) (.vString "") = true := rfl

example : beqValue (zeroValue (.tSlice (.tInt 64))) (.vSlice false []) = false := rfl

example :
    beqValue (zeroValue (.tStruct [(⟨"A", "a", "", false, true⟩, .tInt 64)]))
      (.vStruct [.vInt 64 0]) = true := rfl

end GoBinding
